import Mathlib

/-!
# Shallow embedding of the `pil` game server (`src/server.js`)

This file models the server's state and event handlers as pure Lean
functions and proves the specification claims about them.

Modelling conventions:
* JavaScript numbers used as coordinates are modelled as `ℚ`; scores and
  millisecond timestamps as `ℤ`.  A JavaScript field that may be
  `undefined` is modelled as an `Option`.
* JavaScript `Map`s are modelled as association lists in insertion order:
  `Map.set` replaces the value at an existing key in place and otherwise
  appends, `Map.delete` removes the entry with the key, `Map.get`/`has`
  are `List.lookup`.  Iteration order of a JS `Map` is insertion order,
  which the list preserves.
* Sources of nondeterminism in the source (random spawn points, random
  token strings, `Date.now()`, the computed next-midnight timestamp and
  date strings) become explicit parameters of the handlers.
* `io.emit` / `socket.emit` broadcasts and `fs.writeFileSync` persistence
  calls are modelled as an output list of `Effect`s.
* The source's Euclidean distance test `sqrt(dx*dx+dy*dy) <= r` is
  modelled as the equivalent `dx^2 + dy^2 ≤ r^2` (for `r ≥ 0`, over the
  reals, `Real.sqrt d ≤ r ↔ d ≤ r^2`), which keeps it decidable over `ℚ`.
-/

namespace Pil

/-- JS `Map.set` on an association list: replace in place if the key is
present, otherwise append (insertion order of a JS `Map`). -/
def mapSet {β : Type} (k : String) (v : β) : List (String × β) → List (String × β)
  | [] => [(k, v)]
  | (k', v') :: rest => if k' = k then (k, v) :: rest else (k', v') :: mapSet k v rest

/-- JS `Map.delete` on an association list. -/
def mapDelete {β : Type} (k : String) (l : List (String × β)) : List (String × β) :=
  l.eraseP (fun kv => kv.1 == k)

/-- `sessionTokens` values: `{name, score, created}` (server.js line 638). -/
structure TokenData where
  name : String
  score : ℤ
  created : ℤ
deriving Repr, DecidableEq

/-- All-time leaderboard entries: `{name, score, timestamp, date}`
(server.js lines 169-174). -/
structure ATEntry where
  name : String
  score : ℤ
  timestamp : ℤ
  date : String
deriving Repr, DecidableEq

/-- Daily leaderboard values: `{name, score, timestamp}` (line 263). -/
structure DailyEntry where
  name : String
  score : ℤ
  timestamp : ℤ
deriving Repr, DecidableEq

/-- Persistent player-score ledger values: `{name, score, lastSeen}`. -/
structure LedgerEntry where
  name : String
  score : ℤ
  lastSeen : ℤ
deriving Repr, DecidableEq

/-- Player record created on connection (server.js lines 431-445).
`x`/`y` are `Option ℚ` because the `move` handler copies `data.x`/`data.y`
without checking for `undefined`.  `lastMovementUpdate` is absent until
the first accepted move. -/
structure Player where
  id : String
  x : Option ℚ
  y : Option ℚ
  health : ℤ
  maxHealth : ℤ
  color : String
  name : String
  angle : ℚ
  direction : ℚ
  weaponAngle : ℚ
  kills : ℤ
  score : ℤ
  lastActivity : ℤ
  lastMovementUpdate : Option ℤ
deriving Repr, DecidableEq

/-- A pill: `{id, x, y, points, spawnTime}` (lines 364-370); the id is the
association-list key. -/
structure Pill where
  x : ℚ
  y : ℚ
  points : ℤ
  spawnTime : ℤ
deriving Repr, DecidableEq

/-- The `dailyLeaderboard` object (lines 60-65). -/
structure DailyLeaderboard where
  currentDay : String
  topScores : List (String × DailyEntry)
  resetTime : ℤ
  timeRemaining : ℤ
deriving Repr, DecidableEq

/-- The mutable server state: `gameState`, `playerScores`, `sessionTokens`,
`dailyLeaderboard`, `allTimeLeaderboard`. -/
structure ServerState where
  players : List (String × Player)
  playerCount : ℕ
  pills : List (String × Pill)
  playerScores : List (String × LedgerEntry)
  sessionTokens : List (String × TokenData)
  daily : DailyLeaderboard
  allTime : List ATEntry
deriving Repr, DecidableEq

/-- Events emitted over the socket (`io.emit` / `socket.emit` /
`socket.broadcast.emit`). -/
inductive Event
  | gameState (sid : String)
  | playerUpdate (sid : String) (score : Option ℤ)
  | playerCountUpdate (n : ℕ)
  | playerLeft (sid : String)
  | playerRespawned (sid : String)
  | pillSpawned (pid : String)
  | pillCollected (pid : String) (sid : String) (points : ℤ) (newScore : ℤ)
  | dailyLeaderboardUpdate (day : String)
  | allTimeLeaderboardUpdate
  | timeUpdate (remaining : ℤ)
  | dailyLeaderboardReset (newDay : String) (timeRemaining : ℤ)
  | sessionTokenIssued (token : String) (name : String) (score : ℤ)
deriving Repr, DecidableEq

/-- The wire name of each emitted event, exactly as it appears in
`server.js`.  The protocol has no error message of any kind. -/
def Event.wireName : Event → String
  | .gameState _ => "gameState"
  | .playerUpdate _ _ => "playerUpdate"
  | .playerCountUpdate _ => "playerCountUpdate"
  | .playerLeft _ => "playerLeft"
  | .playerRespawned _ => "playerRespawned"
  | .pillSpawned _ => "pillSpawned"
  | .pillCollected _ _ _ _ => "pillCollected"
  | .dailyLeaderboardUpdate _ => "dailyLeaderboardUpdate"
  | .allTimeLeaderboardUpdate => "allTimeLeaderboardUpdate"
  | .timeUpdate _ => "timeUpdate"
  | .dailyLeaderboardReset _ _ => "dailyLeaderboardReset"
  | .sessionTokenIssued _ _ _ => "sessionToken"

/-- The persisted shape of the daily leaderboard file (lines 118-122). -/
structure DailySnapshot where
  currentDay : String
  topScores : List (String × DailyEntry)
  resetTime : ℤ
deriving Repr, DecidableEq

/-- Observable side effects of a handler: socket emissions and
`fs.writeFileSync` persistence calls. -/
inductive Effect
  | emit (e : Event)
  | saveDaily (snapshot : DailySnapshot)
  | saveAllTime (board : List ATEntry)
  | savePlayerScores (ledger : List (String × LedgerEntry))
deriving Repr, DecidableEq

/-- `TWENTY_FOUR_HOURS` (line 158), in milliseconds. -/
def TWENTY_FOUR_HOURS : ℤ := 24 * 60 * 60 * 1000

/-- `cleanupExpiredTokens` (lines 156-165): the hourly sweep deletes every
token with `now - created > 24h`. -/
def cleanupExpiredTokens (now : ℤ) (tokens : List (String × TokenData)) :
    List (String × TokenData) :=
  tokens.filter (fun kv => now - kv.2.created ≤ TWENTY_FOUR_HOURS)

/-- JS `String.prototype.trim()`: strip leading and trailing whitespace. -/
def jsTrim (s : String) : String :=
  ⟨(((s.data.dropWhile Char.isWhitespace).reverse).dropWhile Char.isWhitespace).reverse⟩

/-- JS `str.substring(0, n)`: the first `n` characters of the string. -/
def jsTake (s : String) (n : ℕ) : String :=
  ⟨s.data.take n⟩

/-- Username sanitization in `setUsername` (line 514):
`username.trim().substring(0, 15)`. -/
def sanitizeUsername (username : String) : String :=
  jsTake (jsTrim username) 15

/-- The comparator of `allTimeLeaderboard.sort((a, b) => b.score - a.score)`
(line 192) as the stable-sort ordering it induces: `a` stays before `b`
when `b.score ≤ a.score` (JS `Array.prototype.sort` is stable). -/
def atlLe (a b : ATEntry) : Bool := b.score ≤ a.score

/-- The find/update/insert part of `updateAllTimeLeaderboard`
(lines 177-189): `findIndex` on the name; if found, overwrite only when
the new score is strictly greater; otherwise push the new entry. -/
def atlUpsert (playerName : String) (newEntry : ATEntry) (board : List ATEntry) :
    List ATEntry :=
  match board.findIdx? (fun entry => entry.name == playerName) with
  | some i =>
      if newEntry.score > (board.getD i newEntry).score then board.set i newEntry
      else board
  | none => board ++ [newEntry]

/-- `updateAllTimeLeaderboard` (lines 167-202), pure part: upsert, then
sort descending by score and keep only the top 3.  `now` and `dateStr`
stand for `Date.now()` and `new Date().toLocaleDateString()`. -/
def updateAllTimeLeaderboard (playerName : String) (score : ℤ) (now : ℤ)
    (dateStr : String) (board : List ATEntry) : List ATEntry :=
  ((atlUpsert playerName ⟨playerName, score, now, dateStr⟩ board).mergeSort atlLe).take 3

/-- `updateAllTimeLeaderboard` as a state transformer, with its
`saveAllTimeLeaderboard()` call and `allTimeLeaderboardUpdate` broadcast. -/
def updateAllTimeLeaderboardState (playerName : String) (score : ℤ) (now : ℤ)
    (dateStr : String) (s : ServerState) : ServerState × List Effect :=
  let board := updateAllTimeLeaderboard playerName score now dateStr s.allTime
  ({ s with allTime := board },
   [.saveAllTime board, .emit .allTimeLeaderboardUpdate])

/-- `updateDailyLeaderboard` (lines 257-285): unconditionally overwrite the
name-keyed entry, persist, broadcast the current standings. -/
def updateDailyLeaderboard (playerName : String) (score : ℤ) (now : ℤ)
    (s : ServerState) : ServerState × List Effect :=
  let topScores := mapSet playerName ⟨playerName, score, now⟩ s.daily.topScores
  let daily := { s.daily with topScores := topScores }
  ({ s with daily := daily },
   [.saveDaily ⟨daily.currentDay, daily.topScores, daily.resetTime⟩,
    .emit (.dailyLeaderboardUpdate daily.currentDay)])

/-- `MAX_PILLS` (line 322). -/
def MAX_PILLS : ℕ := 30

/-- `PILL_SIZE` (line 324). -/
def PILL_SIZE : ℚ := 45

/-- `PLAYER_RADIUS` (line 333). -/
def PLAYER_RADIUS : ℚ := 20

/-- The collision test of `checkPillCollection` (lines 386-390):
`sqrt(dx²+dy²) ≤ PLAYER_RADIUS + PILL_SIZE/2`, stated equivalently on
squared distances.  When either coordinate is `undefined` the JS distance
is `NaN` and the `<=` comparison is false. -/
def inPickupRange (px py : Option ℚ) (pill : Pill) : Bool :=
  match px, py with
  | some x, some y =>
      (x - pill.x) ^ 2 + (y - pill.y) ^ 2 ≤ (PLAYER_RADIUS + PILL_SIZE / 2) ^ 2
  | _, _ => false

/-- `generatePill` (lines 355-379): a no-op when the pool is at capacity,
otherwise insert one pill worth 1 point and broadcast `pillSpawned`.
`pid`, `px`, `py` stand for the random id and spawn point. -/
def generatePill (pid : String) (px py : ℚ) (now : ℤ) (s : ServerState) :
    ServerState × List Effect :=
  if s.pills.length ≥ MAX_PILLS then (s, [])
  else
    ({ s with pills := mapSet pid ⟨px, py, 1, now⟩ s.pills },
     [.emit (.pillSpawned pid)])

/-- `checkPillCollection` (lines 381-421): scan the pool in iteration
order; the first pill within range is collected — score increased, pill
deleted, ledger entry upserted and persisted, `pillCollected` broadcast,
both leaderboards updated — and the loop `break`s. -/
def checkPillCollection (playerId : String) (px py : Option ℚ) (now : ℤ)
    (dateStr : String) (s : ServerState) : ServerState × List Effect :=
  match s.players.lookup playerId with
  | none => (s, [])
  | some player =>
    match s.pills.find? (fun kv => inPickupRange px py kv.2) with
    | none => (s, [])
    | some (pid, pill) =>
      let newScore := player.score + pill.points
      let player' := { player with score := newScore }
      let playerKey := player.name ++ "_" ++ playerId
      let s₁ := { s with
        players := mapSet playerId player' s.players,
        pills := mapDelete pid s.pills,
        playerScores :=
          mapSet playerKey ⟨player.name, newScore, now⟩ s.playerScores }
      let eff₀ : List Effect :=
        [.savePlayerScores s₁.playerScores,
         .emit (.pillCollected pid playerId pill.points newScore)]
      let (s₂, eff₁) := updateDailyLeaderboard player.name newScore now s₁
      let (s₃, eff₂) := updateAllTimeLeaderboardState player.name newScore now dateStr s₂
      (s₃, eff₀ ++ eff₁ ++ eff₂)

/-- The `move` payload `{x, y, direction?, weaponAngle?}`; every field can
be absent (`undefined`), since the handler reads them without validation. -/
structure MoveData where
  x : Option ℚ
  y : Option ℚ
  direction : Option ℚ
  weaponAngle : Option ℚ
deriving Repr, DecidableEq

/-- The `move` handler (lines 566-605): ignored unless the player exists
and is alive; throttled to one accepted update per 16 ms (against
`player.lastMovementUpdate || 0`); on acceptance position, direction and
weapon angle are overwritten (`x`/`y` unconditionally, the others only if
present), timestamps stamped, pill collection checked at the new position,
and the update broadcast to the other connections. -/
def handleMove (sid : String) (d : MoveData) (now : ℤ) (dateStr : String)
    (s : ServerState) : ServerState × List Effect :=
  match s.players.lookup sid with
  | none => (s, [])
  | some player =>
    if player.health > 0 then
      if now - player.lastMovementUpdate.getD 0 ≥ 16 then
        let player' := { player with
          x := d.x, y := d.y,
          direction := d.direction.getD player.direction,
          weaponAngle := d.weaponAngle.getD player.weaponAngle,
          lastActivity := now,
          lastMovementUpdate := some now }
        let s₁ := { s with players := mapSet sid player' s.players }
        let (s₂, eff) := checkPillCollection sid player'.x player'.y now dateStr s₁
        let finalScore := (s₂.players.lookup sid).map Player.score
        (s₂, eff ++ [.emit (.playerUpdate sid ((finalScore).getD 0 |> some))])
      else (s, [])
    else (s, [])

/-- `setUsername` payloads: the handler accepts both a bare string and an
object `{username, sessionToken?}` (lines 504-510); object fields may be
absent. -/
inductive UsernameData
  | str (username : String)
  | obj (username : Option String) (sessionToken : Option String)
deriving Repr, DecidableEq

/-- The `setUsername` handler (lines 499-563).  A no-op unless the player
exists and the username is present and nonempty after trimming.  The name
is sanitized and stored; the starting score defaults to 0 and is restored
from a session token only when the token is in the store and its bound
name equals the sanitized username, in which case the token is deleted.
The ledger entry is upserted and persisted and the player broadcast. -/
def handleSetUsername (sid : String) (data : UsernameData) (now : ℤ)
    (s : ServerState) : ServerState × List Effect :=
  let username : Option String :=
    match data with
    | .str u => some u
    | .obj u _ => u
  let sessionToken : Option String :=
    match data with
    | .str _ => none
    | .obj _ t => t
  match s.players.lookup sid, username with
  | some player, some uname =>
    if (jsTrim uname).length > 0 then
      let cleanUsername := sanitizeUsername uname
      let (restoredScore, tokens') :=
        match sessionToken with
        | some tok =>
          match s.sessionTokens.lookup tok with
          | some tokenData =>
            if tokenData.name = cleanUsername then
              (tokenData.score, mapDelete tok s.sessionTokens)
            else (0, s.sessionTokens)
          | none => (0, s.sessionTokens)
        | none => (0, s.sessionTokens)
      let player' := { player with name := cleanUsername, score := restoredScore }
      let playerKey := cleanUsername ++ "_" ++ sid
      let s' := { s with
        players := mapSet sid player' s.players,
        sessionTokens := tokens',
        playerScores :=
          mapSet playerKey ⟨cleanUsername, restoredScore, now⟩ s.playerScores }
      (s', [.savePlayerScores s'.playerScores,
            .emit (.playerUpdate sid (some restoredScore))])
    else (s, [])
  | _, _ => (s, [])

/-- The connection handler (lines 424-496): create a fresh player with
full health, score 0 and the sequential display name, register it, send
the snapshot to the new connection and broadcast the new player and the
player count. -/
def handleConnect (sid : String) (sx sy : ℚ) (color : String)
    (playerNumber : ℕ) (now : ℤ) (s : ServerState) : ServerState × List Effect :=
  let newPlayer : Player := {
    id := sid, x := some sx, y := some sy, health := 100, maxHealth := 100,
    color := color, name := "Player " ++ toString playerNumber,
    angle := 0, direction := 1, weaponAngle := 0, kills := 0, score := 0,
    lastActivity := now, lastMovementUpdate := none }
  let players := mapSet sid newPlayer s.players
  let s' := { s with players := players, playerCount := players.length }
  (s', [.emit (.gameState sid), .emit (.playerUpdate sid none),
        .emit (.playerCountUpdate s'.playerCount)])

/-- The disconnect handler (lines 626-659): if the departing player has a
positive score, push it into the daily leaderboard, mint a session token
binding `(name, score, now)` and unicast it; then remove the player,
broadcast `playerLeft` and the new count.  `tok` stands for the random
`generateSessionToken()` string.  (The player's `name` is always a
nonempty string, so the JS truthiness test on it always passes.) -/
def handleDisconnect (sid : String) (tok : String) (now : ℤ)
    (s : ServerState) : ServerState × List Effect :=
  match s.players.lookup sid with
  | none => (s, [])
  | some player =>
    let (s₁, eff₁) :=
      if player.score > 0 then
        let (sA, effA) := updateDailyLeaderboard player.name player.score now s
        let sB := { sA with
          sessionTokens := mapSet tok ⟨player.name, player.score, now⟩ sA.sessionTokens }
        (sB, effA ++ [.emit (.sessionTokenIssued tok player.name player.score)])
      else (s, [])
    let players := mapDelete sid s₁.players
    let s₂ := { s₁ with players := players, playerCount := players.length }
    (s₂, eff₁ ++ [.emit (.playerLeft sid), .emit (.playerCountUpdate s₂.playerCount)])

/-- The delayed `respawn` callback (lines 610-623): if the player is still
connected when the 3000 ms delay fires, move it to a fresh spawn point and
restore full health. -/
def handleRespawnFire (sid : String) (sx sy : ℚ) (s : ServerState) :
    ServerState × List Effect :=
  match s.players.lookup sid with
  | none => (s, [])
  | some player =>
    let player' := { player with x := some sx, y := some sy, health := player.maxHealth }
    ({ s with players := mapSet sid player' s.players },
     [.emit (.playerRespawned sid)])

/-- One firing of the 1-second interval (lines 294-307):
`updateTimeRemaining()` clamps `resetTime - now` at 0; if the result is
`≤ 0`, `resetDailyLeaderboard()` (lines 222-255) clears the entries, sets
`currentDay` to today, sets the next midnight as the new reset target,
persists, and broadcasts `dailyLeaderboardReset` carrying the *current*
`timeRemaining` field (which the reset did not recompute); finally the
tick always broadcasts `timeUpdate`.  `nextMidnight` and `today` stand for
the `tomorrow.setHours(0,0,0,0)` timestamp and `new Date().toDateString()`. -/
def dailyTick (now nextMidnight : ℤ) (today : String) (s : ServerState) :
    ServerState × List Effect :=
  let s₀ := { s with daily := { s.daily with timeRemaining := max 0 (s.daily.resetTime - now) } }
  let (s₁, eff₁) :=
    if s₀.daily.timeRemaining ≤ 0 then
      let daily := { s₀.daily with
        topScores := [], currentDay := today, resetTime := nextMidnight }
      let s' := { s₀ with daily := daily }
      (s', [.saveDaily ⟨daily.currentDay, daily.topScores, daily.resetTime⟩,
            .emit (.dailyLeaderboardReset daily.currentDay daily.timeRemaining)])
    else (s₀, [])
  (s₁, eff₁ ++ [.emit (.timeUpdate s₁.daily.timeRemaining)])

/-- The hourly token sweep interval (lines 317-319). -/
def sweepTokens (now : ℤ) (s : ServerState) : ServerState × List Effect :=
  ({ s with sessionTokens := cleanupExpiredTokens now s.sessionTokens }, [])

/-- Every state-mutating unit of work the server schedules: connection
events, client messages, and timer firings, with their nondeterministic
inputs made explicit. -/
inductive ServerOp
  | connect (sid : String) (sx sy : ℚ) (color : String) (playerNumber : ℕ) (now : ℤ)
  | setUsername (sid : String) (data : UsernameData) (now : ℤ)
  | move (sid : String) (d : MoveData) (now : ℤ) (dateStr : String)
  | respawnFire (sid : String) (sx sy : ℚ)
  | disconnect (sid : String) (tok : String) (now : ℤ)
  | spawnPill (pid : String) (px py : ℚ) (now : ℤ)
  | tick (now nextMidnight : ℤ) (today : String)
  | sweep (now : ℤ)
deriving Repr, DecidableEq

/-- Dispatch one unit of work. -/
def step (op : ServerOp) (s : ServerState) : ServerState × List Effect :=
  match op with
  | .connect sid sx sy color playerNumber now => handleConnect sid sx sy color playerNumber now s
  | .setUsername sid data now => handleSetUsername sid data now s
  | .move sid d now dateStr => handleMove sid d now dateStr s
  | .respawnFire sid sx sy => handleRespawnFire sid sx sy s
  | .disconnect sid tok now => handleDisconnect sid tok now s
  | .spawnPill pid px py now => generatePill pid px py now s
  | .tick now nextMidnight today => dailyTick now nextMidnight today s
  | .sweep now => sweepTokens now s

/-- The acceptance test of the `move` handler (lines 568-573): the player
exists, is alive, and at least 16 ms have passed since the last accepted
move (`player.lastMovementUpdate || 0`). -/
def moveAccepted (s : ServerState) (sid : String) (now : ℤ) : Bool :=
  match s.players.lookup sid with
  | some p => decide (p.health > 0) && decide (now - p.lastMovementUpdate.getD 0 ≥ 16)
  | none => false

/-- The player's `lastMovementUpdate || 0` value, as read by the throttle. -/
def lastMoveBound (s : ServerState) (sid : String) : ℤ :=
  match s.players.lookup sid with
  | some p => p.lastMovementUpdate.getD 0
  | none => 0

/-- Process a trace of `move` events (processing time, payload) for one
connection, returning the processing times of the accepted ones. -/
def runMoves (sid : String) (dateStr : String) :
    ServerState → List (ℤ × MoveData) → List ℤ
  | _, [] => []
  | s, (t, d) :: rest =>
      if moveAccepted s sid t then
        t :: runMoves sid dateStr (handleMove sid d t dateStr s).1 rest
      else
        runMoves sid dateStr (handleMove sid d t dateStr s).1 rest

/-- Non-increasing scores, the sort order the leaderboard comparator
establishes (ties allowed, since `b.score - a.score` is `0` on a tie). -/
def SortedByScore (l : List ATEntry) : Prop :=
  l.Pairwise (fun a b => b.score ≤ a.score)

/-- The all-time leaderboard invariant: at most 3 entries, non-increasing
scores, at most one entry per player name. -/
def ATLInv (board : List ATEntry) : Prop :=
  board.length ≤ 3 ∧ SortedByScore board ∧ (board.map ATEntry.name).Nodup

/-- A concrete player fixture used by witnesses and counterexamples. -/
def wPlayer : Player :=
  { id := "p1"
    x := some 5
    y := some 7
    health := 100
    maxHealth := 100
    color := "#00d4ff"
    name := "Player 1"
    angle := 0
    direction := 1
    weaponAngle := 0
    kills := 0
    score := 0
    lastActivity := 0
    lastMovementUpdate := none }

/-- A concrete empty daily leaderboard fixture. -/
def wDaily : DailyLeaderboard :=
  { currentDay := "Fri Oct 10 2025", topScores := [], resetTime := 0, timeRemaining := 0 }

/-- A concrete server state holding one player and one session token for
"Alice" with score 50 created at time 0. -/
def wStateToken : ServerState :=
  { players := [("p1", wPlayer)]
    playerCount := 1
    pills := []
    playerScores := []
    sessionTokens := [("tok", ⟨"Alice", 50, 0⟩)]
    daily := wDaily
    allTime := [] }

/-- A concrete server state holding one player and no tokens. -/
def wStatePlain : ServerState :=
  { players := [("p1", wPlayer)]
    playerCount := 1
    pills := []
    playerScores := []
    sessionTokens := []
    daily := wDaily
    allTime := [] }

/-- A concrete player named "Alice" with score 50. -/
def wAlice : Player :=
  { wPlayer with name := "Alice", score := 50 }

/-- A concrete server state holding only "Alice" and no tokens. -/
def wStateAlice : ServerState :=
  { players := [("p1", wAlice)]
    playerCount := 1
    pills := []
    playerScores := []
    sessionTokens := []
    daily := wDaily
    allTime := [] }

/-- A concrete state whose daily leaderboard holds one entry and whose
reset target (time 1000) has been reached. -/
def wStateReset : ServerState :=
  { players := []
    playerCount := 0
    pills := []
    playerScores := []
    sessionTokens := []
    daily := { currentDay := "Fri Oct 10 2025"
               topScores := [("A", ⟨"A", 3, 0⟩)]
               resetTime := 1000
               timeRemaining := 500 }
    allTime := [] }

/-- A concrete state with two pills at the same point, both overlapping
the position `(5, 7)`. -/
def wStateTwoPills : ServerState :=
  { players := [("p1", wPlayer)]
    playerCount := 1
    pills := [("pillA", ⟨5, 7, 1, 0⟩), ("pillB", ⟨5, 7, 1, 0⟩)]
    playerScores := []
    sessionTokens := []
    daily := wDaily
    allTime := [] }

/-! ## Association list helper lemmas -/

theorem lookup_mapSet_self {β : Type} (k : String) (v : β) (l : List (String × β)) :
    (mapSet k v l).lookup k = some v := by
  induction l with
  | nil => simp [mapSet, List.lookup]
  | cons kv rest ih =>
    obtain ⟨k', v'⟩ := kv
    by_cases h : k' = k
    · simp [mapSet, h, List.lookup]
    · simp only [mapSet, if_neg h, List.lookup]
      have : (k == k') = false := by
        simp [beq_eq_false_iff_ne]
        exact fun hk => h hk.symm
      simp [this, ih]

theorem lookup_mapSet_ne {β : Type} {k k' : String} (v : β) (l : List (String × β))
    (h : k' ≠ k) : (mapSet k v l).lookup k' = l.lookup k' := by
  induction l with
  | nil =>
    have hne : (k' == k) = false := by simp [beq_eq_false_iff_ne, h]
    simp [mapSet, List.lookup, hne]
  | cons kv rest ih =>
    obtain ⟨k₀, v₀⟩ := kv
    by_cases hk : k₀ = k
    · subst hk
      have hne : (k' == k₀) = false := by simp [beq_eq_false_iff_ne, h]
      simp [mapSet, List.lookup, hne]
    · simp only [mapSet, if_neg hk, List.lookup]
      by_cases he : k' = k₀
      · simp [he]
      · have hne : (k' == k₀) = false := by simp [beq_eq_false_iff_ne, he]
        simp [hne, ih]

theorem mapSet_of_lookup_none {β : Type} {k : String} (v : β) {l : List (String × β)}
    (h : l.lookup k = none) : mapSet k v l = l ++ [(k, v)] := by
  induction l with
  | nil => simp [mapSet]
  | cons kv rest ih =>
    obtain ⟨k', v'⟩ := kv
    simp only [List.lookup] at h
    by_cases hk : k = k'
    · simp [hk] at h
    · have hne : (k == k') = false := by simp [beq_eq_false_iff_ne, hk]
      simp only [hne] at h
      have hk' : k' ≠ k := fun e => hk e.symm
      simp [mapSet, if_neg hk', ih h]

theorem mapSet_length_le {β : Type} (k : String) (v : β) (l : List (String × β)) :
    (mapSet k v l).length ≤ l.length + 1 := by
  induction l with
  | nil => simp [mapSet]
  | cons kv rest ih =>
    obtain ⟨k', v'⟩ := kv
    by_cases h : k' = k
    · simp [mapSet, h]
    · simp only [mapSet, if_neg h, List.length_cons]
      omega

theorem lookup_none_forall {β : Type} {k : String} {l : List (String × β)}
    (h : l.lookup k = none) : ∀ kv ∈ l, kv.1 ≠ k := by
  induction l with
  | nil => simp
  | cons kv rest ih =>
    obtain ⟨k', v'⟩ := kv
    simp only [List.lookup] at h
    by_cases hk : k = k'
    · simp [hk] at h
    · have hne : (k == k') = false := by simp [beq_eq_false_iff_ne, hk]
      simp only [hne] at h
      intro x hx
      rcases List.mem_cons.mp hx with rfl | hx'
      · exact fun e => hk e.symm
      · exact ih h x hx'

theorem mapDelete_append_single {β : Type} {k : String} (v : β) {l : List (String × β)}
    (h : l.lookup k = none) : mapDelete k (l ++ [(k, v)]) = l := by
  have hall := lookup_none_forall h
  unfold mapDelete
  rw [List.eraseP_append_right]
  · simp
  · intro kv hkv
    simp [beq_eq_false_iff_ne]
    exact hall kv hkv

theorem mapDelete_length_le {β : Type} (k : String) (l : List (String × β)) :
    (mapDelete k l).length ≤ l.length :=
  List.length_eraseP_le l

/-! ## `setUsername` characterization lemmas -/

theorem setUsername_redeem (s : ServerState) (sid uname tok : String) (now : ℤ)
    {player : Player} {td : TokenData}
    (hp : s.players.lookup sid = some player)
    (hu : 0 < (jsTrim uname).length)
    (ht : s.sessionTokens.lookup tok = some td)
    (hname : td.name = sanitizeUsername uname) :
    ((handleSetUsername sid (.obj (some uname) (some tok)) now s).1.players.lookup sid
        = some { player with name := sanitizeUsername uname, score := td.score })
    ∧ (handleSetUsername sid (.obj (some uname) (some tok)) now s).1.sessionTokens
        = mapDelete tok s.sessionTokens := by
  simp [handleSetUsername, hp, ht, hname, hu, lookup_mapSet_self]

theorem setUsername_mismatch (s : ServerState) (sid uname tok : String) (now : ℤ)
    {player : Player} {td : TokenData}
    (hp : s.players.lookup sid = some player)
    (hu : 0 < (jsTrim uname).length)
    (ht : s.sessionTokens.lookup tok = some td)
    (hname : td.name ≠ sanitizeUsername uname) :
    ((handleSetUsername sid (.obj (some uname) (some tok)) now s).1.players.lookup sid
        = some { player with name := sanitizeUsername uname, score := 0 })
    ∧ (handleSetUsername sid (.obj (some uname) (some tok)) now s).1.sessionTokens
        = s.sessionTokens := by
  simp [handleSetUsername, hp, ht, hname, hu, lookup_mapSet_self]

theorem setUsername_unknown_token (s : ServerState) (sid uname tok : String) (now : ℤ)
    {player : Player}
    (hp : s.players.lookup sid = some player)
    (hu : 0 < (jsTrim uname).length)
    (ht : s.sessionTokens.lookup tok = none) :
    ((handleSetUsername sid (.obj (some uname) (some tok)) now s).1.players.lookup sid
        = some { player with name := sanitizeUsername uname, score := 0 })
    ∧ (handleSetUsername sid (.obj (some uname) (some tok)) now s).1.sessionTokens
        = s.sessionTokens := by
  simp [handleSetUsername, hp, ht, hu, lookup_mapSet_self]

theorem setUsername_noop_of_whitespace (s : ServerState) (sid uname : String)
    (tokOpt : Option String) (now : ℤ) (h0 : (jsTrim uname).length = 0) :
    handleSetUsername sid (.obj (some uname) tokOpt) now s = (s, []) := by
  cases hp : s.players.lookup sid <;> simp [handleSetUsername, hp, h0]

theorem setUsername_noop_of_missing (s : ServerState) (sid : String)
    (tokOpt : Option String) (now : ℤ) :
    handleSetUsername sid (.obj none tokOpt) now s = (s, []) := by
  cases hp : s.players.lookup sid <;> simp [handleSetUsername, hp]

/-! ## Claim C1 -/

/-- C1 counterexample: the claim requires that a token created more than
24 hours before the `setUsername` call yields a starting score of 0 even
if the hourly sweep has not yet removed it.  In the code there is no
age check at redemption: a token created at time 0 and presented at time
90000000 (25 hours later, beyond `TWENTY_FOUR_HOURS`) is still redeemed —
the bound score 50 is applied (not 0) and the token is deleted. -/
theorem c1_counterexample :
    ((90000000 : ℤ) - 0 > TWENTY_FOUR_HOURS)
    ∧ ((handleSetUsername "p1" (.obj (some "Alice") (some "tok")) 90000000
          wStateToken).1.players.lookup "p1").map Player.score = some 50
    ∧ ((handleSetUsername "p1" (.obj (some "Alice") (some "tok")) 90000000
          wStateToken).1.sessionTokens = [])
    ∧ (some (50 : ℤ) ≠ some (0 : ℤ)) :=
  ⟨by decide, by decide, by decide, by decide⟩

/-- C1 (amended): redemption in `setUsername` succeeds exactly when the
token exists in the store and its bound name equals the sanitized
username — there is no age check at redemption, so token expiry is
enforced only by the hourly sweep.  On success the bound score is applied
and the token deleted; on a mismatched or unknown token the score is 0
and the token store is unchanged.  The sweep keeps precisely the tokens
at most 24 hours old. -/
theorem c1_token_redemption (s : ServerState) (sid uname tok : String) (now : ℤ)
    (player : Player)
    (hp : s.players.lookup sid = some player)
    (hu : 0 < (jsTrim uname).length) :
    (∀ td, s.sessionTokens.lookup tok = some td → td.name = sanitizeUsername uname →
        ((handleSetUsername sid (.obj (some uname) (some tok)) now s).1.players.lookup sid
            = some { player with name := sanitizeUsername uname, score := td.score })
        ∧ (handleSetUsername sid (.obj (some uname) (some tok)) now s).1.sessionTokens
            = mapDelete tok s.sessionTokens)
    ∧ (∀ td, s.sessionTokens.lookup tok = some td → td.name ≠ sanitizeUsername uname →
        ((handleSetUsername sid (.obj (some uname) (some tok)) now s).1.players.lookup sid
            = some { player with name := sanitizeUsername uname, score := 0 })
        ∧ (handleSetUsername sid (.obj (some uname) (some tok)) now s).1.sessionTokens
            = s.sessionTokens)
    ∧ (s.sessionTokens.lookup tok = none →
        ((handleSetUsername sid (.obj (some uname) (some tok)) now s).1.players.lookup sid
            = some { player with name := sanitizeUsername uname, score := 0 })
        ∧ (handleSetUsername sid (.obj (some uname) (some tok)) now s).1.sessionTokens
            = s.sessionTokens)
    ∧ (∀ t td, (t, td) ∈ cleanupExpiredTokens now s.sessionTokens
        ↔ ((t, td) ∈ s.sessionTokens ∧ now - td.created ≤ TWENTY_FOUR_HOURS)) := by
  refine ⟨?_, ?_, ?_, ?_⟩
  · intro td ht hname
    exact setUsername_redeem s sid uname tok now hp hu ht hname
  · intro td ht hname
    exact setUsername_mismatch s sid uname tok now hp hu ht hname
  · intro ht
    exact setUsername_unknown_token s sid uname tok now hp hu ht
  · intro t td
    simp [cleanupExpiredTokens, List.mem_filter]

/-- C1 witness: the amended redemption theorem applied at a concrete
state: the token bound to "Alice" with score 50 is redeemed. -/
theorem c1_witness :
    ((handleSetUsername "p1" (.obj (some "Alice") (some "tok")) 1000
        wStateToken).1.players.lookup "p1"
      = some { wPlayer with name := sanitizeUsername "Alice", score := 50 })
    ∧ (handleSetUsername "p1" (.obj (some "Alice") (some "tok")) 1000
        wStateToken).1.sessionTokens = mapDelete "tok" wStateToken.sessionTokens :=
  (c1_token_redemption wStateToken "p1" "Alice" "tok" 1000 wPlayer (by decide)
    (by decide)).1 ⟨"Alice", 50, 0⟩ (by decide) (by decide)

/-! ## Claim C10 -/

/-- C10: a `setUsername` presenting a token whose bound name differs from
the sanitized username leaves the token store completely unchanged; only
the player's name (set to the sanitized username) and score (set to 0)
change; and the very same token can later be redeemed by a `setUsername`
whose sanitized username equals the token's bound name, which applies the
bound score. -/
theorem c10_mismatch_preserves_token (s : ServerState) (sid uname tok : String)
    (now : ℤ) (player : Player) (td : TokenData)
    (hp : s.players.lookup sid = some player)
    (hu : 0 < (jsTrim uname).length)
    (ht : s.sessionTokens.lookup tok = some td)
    (hmm : td.name ≠ sanitizeUsername uname) :
    ((handleSetUsername sid (.obj (some uname) (some tok)) now s).1.sessionTokens
        = s.sessionTokens)
    ∧ ((handleSetUsername sid (.obj (some uname) (some tok)) now s).1.players.lookup sid
        = some { player with name := sanitizeUsername uname, score := 0 })
    ∧ (∀ sid' u₂ now₂ p',
        (handleSetUsername sid (.obj (some uname) (some tok)) now s).1.players.lookup sid'
            = some p' →
        0 < (jsTrim u₂).length →
        td.name = sanitizeUsername u₂ →
        ((handleSetUsername sid' (.obj (some u₂) (some tok)) now₂
            (handleSetUsername sid (.obj (some uname) (some tok)) now s).1).1.players.lookup sid'
          = some { p' with name := sanitizeUsername u₂, score := td.score })) := by
  obtain ⟨h1, h2⟩ := setUsername_mismatch s sid uname tok now hp hu ht hmm
  refine ⟨h2, h1, ?_⟩
  intro sid' u₂ now₂ p' hp' hu₂ hname₂
  have ht' : (handleSetUsername sid (.obj (some uname) (some tok)) now
      s).1.sessionTokens.lookup tok = some td := by rw [h2]; exact ht
  exact (setUsername_redeem _ sid' u₂ tok now₂ hp' hu₂ ht' hname₂).1

/-- C10 witness: a mismatched redemption ("Bob" against the token bound to
"Alice") leaves the token in place, and the same token is then redeemed by
"Alice". -/
theorem c10_witness :
    ((handleSetUsername "p1" (.obj (some "Bob") (some "tok")) 1000
        wStateToken).1.sessionTokens = wStateToken.sessionTokens)
    ∧ ((handleSetUsername "p1" (.obj (some "Bob") (some "tok")) 1000
        wStateToken).1.players.lookup "p1"
        = some { wPlayer with name := sanitizeUsername "Bob", score := 0 })
    ∧ ((handleSetUsername "p1" (.obj (some "Alice") (some "tok")) 2000
          (handleSetUsername "p1" (.obj (some "Bob") (some "tok")) 1000
            wStateToken).1).1.players.lookup "p1"
        = some { { wPlayer with name := sanitizeUsername "Bob", score := 0 } with
                 name := sanitizeUsername "Alice", score := 50 }) := by
  have h := c10_mismatch_preserves_token wStateToken "p1" "Bob" "tok" 1000 wPlayer
    ⟨"Alice", 50, 0⟩ (by decide) (by decide) (by decide) (by decide)
  exact ⟨h.1, h.2.1, h.2.2 "p1" "Alice" 2000 _ h.2.1 (by decide) (by decide)⟩

/-! ## Claim C2 -/

/-- C2: a token minted at disconnect binding name `N` and score `S` is,
on a subsequent `setUsername` whose sanitized username is exactly `N`,
redeemed for exactly `S` and deleted from the store; presenting the same
token a second time is treated as an unknown token and yields score 0. -/
theorem c2_token_lifecycle (s₀ s₁ s₂ s₃ : ServerState)
    (sid₁ sid₂ tok N color : String) (S t₁ t₂ t₃ t₄ : ℤ) (sx sy : ℚ) (num : ℕ)
    (p : Player)
    (hp : s₀.players.lookup sid₁ = some p)
    (hname : p.name = N) (hscore : p.score = S) (hS : 0 < S)
    (hsan : sanitizeUsername N = N) (hlen : 0 < (jsTrim N).length)
    (hfresh : s₀.sessionTokens.lookup tok = none)
    (hs₁ : s₁ = (handleDisconnect sid₁ tok t₁ s₀).1)
    (hs₂ : s₂ = (handleConnect sid₂ sx sy color num t₂ s₁).1)
    (hs₃ : s₃ = (handleSetUsername sid₂ (.obj (some N) (some tok)) t₃ s₂).1) :
    (s₁.sessionTokens.lookup tok = some ⟨N, S, t₁⟩)
    ∧ (∃ q, s₂.players.lookup sid₂ = some q
        ∧ s₃.players.lookup sid₂ = some { q with name := N, score := S }
        ∧ s₃.sessionTokens.lookup tok = none
        ∧ ((handleSetUsername sid₂ (.obj (some N) (some tok)) t₄ s₃).1.players.lookup sid₂
            = some { q with name := N, score := 0 })) := by
  have h1tok : s₁.sessionTokens = mapSet tok ⟨N, S, t₁⟩ s₀.sessionTokens := by
    subst hs₁
    simp [handleDisconnect, hp, updateDailyLeaderboard, hname, hscore, hS]
  have h2tok : s₂.sessionTokens = s₁.sessionTokens := by
    subst hs₂; simp [handleConnect]
  have h2q : s₂.players.lookup sid₂ = some
      { id := sid₂, x := some sx, y := some sy, health := 100, maxHealth := 100,
        color := color, name := "Player " ++ toString num, angle := 0, direction := 1,
        weaponAngle := 0, kills := 0, score := 0, lastActivity := t₂,
        lastMovementUpdate := none } := by
    subst hs₂; simp [handleConnect, lookup_mapSet_self]
  obtain ⟨q, hq⟩ : ∃ q, s₂.players.lookup sid₂ = some q := ⟨_, h2q⟩
  have ht₂ : s₂.sessionTokens.lookup tok = some ⟨N, S, t₁⟩ := by
    rw [h2tok, h1tok]; exact lookup_mapSet_self tok _ _
  have hmatch : (TokenData.mk N S t₁).name = sanitizeUsername N := hsan.symm
  have hred := setUsername_redeem s₂ sid₂ N tok t₃ hq hlen ht₂ hmatch
  have h3p : s₃.players.lookup sid₂ = some { q with name := N, score := S } := by
    rw [hs₃]
    have := hred.1
    rwa [hsan] at this
  have h3tok : s₃.sessionTokens.lookup tok = none := by
    rw [hs₃, hred.2, h2tok, h1tok, mapSet_of_lookup_none _ hfresh,
      mapDelete_append_single _ hfresh]
    exact hfresh
  have hsecond := setUsername_unknown_token s₃ sid₂ N tok t₄ h3p hlen h3tok
  refine ⟨by rw [h1tok]; exact lookup_mapSet_self tok _ _, q, hq, h3p, h3tok, ?_⟩
  have := hsecond.1
  rwa [hsan] at this

/-- C2 witness: the lifecycle theorem applied to a concrete state where
"Alice" disconnects with score 50, reconnects, and redeems her token. -/
theorem c2_witness :
    (((handleDisconnect "p1" "tok" 100 wStateAlice).1).sessionTokens.lookup "tok"
        = some ⟨"Alice", 50, 100⟩)
    ∧ (∃ q, (handleConnect "p2" 1 2 "#7c3aed" 2 200
              (handleDisconnect "p1" "tok" 100 wStateAlice).1).1.players.lookup "p2" = some q
        ∧ ((handleSetUsername "p2" (.obj (some "Alice") (some "tok")) 300
              (handleConnect "p2" 1 2 "#7c3aed" 2 200
                (handleDisconnect "p1" "tok" 100 wStateAlice).1).1).1.players.lookup "p2"
            = some { q with name := "Alice", score := 50 })
        ∧ ((handleSetUsername "p2" (.obj (some "Alice") (some "tok")) 300
              (handleConnect "p2" 1 2 "#7c3aed" 2 200
                (handleDisconnect "p1" "tok" 100 wStateAlice).1).1).1.sessionTokens.lookup "tok"
            = none)
        ∧ ((handleSetUsername "p2" (.obj (some "Alice") (some "tok")) 400
              (handleSetUsername "p2" (.obj (some "Alice") (some "tok")) 300
                (handleConnect "p2" 1 2 "#7c3aed" 2 200
                  (handleDisconnect "p1" "tok" 100 wStateAlice).1).1).1).1.players.lookup "p2"
            = some { q with name := "Alice", score := 0 })) :=
  c2_token_lifecycle wStateAlice _ _ _ "p1" "p2" "tok" "Alice" "#7c3aed" 50
    100 200 300 400 1 2 2 wAlice (by decide) (by decide) (by decide) (by decide)
    (by decide) (by decide) (by decide) rfl rfl rfl

/-! ## `move` handler lemmas -/

theorem moveAccepted_iff (s : ServerState) (sid : String) (now : ℤ) :
    moveAccepted s sid now = true ↔
    ∃ p, s.players.lookup sid = some p ∧ p.health > 0
      ∧ now - p.lastMovementUpdate.getD 0 ≥ 16 := by
  unfold moveAccepted
  cases hp : s.players.lookup sid <;> simp [hp]

theorem handleMove_rejected (s : ServerState) (sid : String) (d : MoveData)
    (now : ℤ) (ds : String) (h : moveAccepted s sid now = false) :
    handleMove sid d now ds s = (s, []) := by
  unfold moveAccepted at h
  unfold handleMove
  cases hp : s.players.lookup sid with
  | none => rfl
  | some p =>
    rw [hp] at h
    simp only [Bool.and_eq_false_iff, decide_eq_false_iff_not] at h
    rcases h with h | h
    · simp [h]
    · by_cases hh : p.health > 0
      · simp [hh, h]
      · simp [hh]

theorem handleMove_accepted (s : ServerState) (sid : String) (d : MoveData)
    (now : ℤ) (ds : String) (h : moveAccepted s sid now = true) :
    ∃ p', (handleMove sid d now ds s).1.players.lookup sid = some p'
      ∧ p'.x = d.x ∧ p'.y = d.y ∧ p'.lastMovementUpdate = some now := by
  obtain ⟨p, hp, hh, hg⟩ := (moveAccepted_iff s sid now).mp h
  unfold handleMove
  rw [hp]
  simp only [if_pos hh, if_pos hg]
  set p' : Player := { p with
    x := d.x, y := d.y,
    direction := d.direction.getD p.direction,
    weaponAngle := d.weaponAngle.getD p.weaponAngle,
    lastActivity := now,
    lastMovementUpdate := some now } with hp'
  unfold checkPillCollection
  simp only [lookup_mapSet_self]
  cases hfind : List.find? (fun kv => inPickupRange p'.x p'.y kv.2) s.pills with
  | none => exact ⟨p', by simp [lookup_mapSet_self], rfl, rfl, rfl⟩
  | some kv =>
    obtain ⟨pid, pill⟩ := kv
    refine ⟨{ p' with score := p'.score + pill.points }, ?_, rfl, rfl, rfl⟩
    simp [updateDailyLeaderboard, updateAllTimeLeaderboardState, lookup_mapSet_self]

theorem lastMoveBound_after_accepted (s : ServerState) (sid : String)
    (d : MoveData) (now : ℤ) (ds : String) (h : moveAccepted s sid now = true) :
    lastMoveBound (handleMove sid d now ds s).1 sid = now := by
  obtain ⟨p', hp', _, _, hl⟩ := handleMove_accepted s sid d now ds h
  simp [lastMoveBound, hp', hl]

theorem moveAccepted_bound (s : ServerState) (sid : String) (now : ℤ)
    (h : moveAccepted s sid now = true) : lastMoveBound s sid + 16 ≤ now := by
  obtain ⟨p, hp, _, hg⟩ := (moveAccepted_iff s sid now).mp h
  simp only [lastMoveBound, hp]
  omega

theorem runMoves_chain (sid ds : String) : ∀ (ms : List (ℤ × MoveData)) (s : ServerState),
    List.Chain' (fun a b => a + 16 ≤ b) (runMoves sid ds s ms)
    ∧ ∀ t ∈ runMoves sid ds s ms, lastMoveBound s sid + 16 ≤ t := by
  intro ms
  induction ms with
  | nil => intro s; simp [runMoves]
  | cons td rest ih =>
    intro s
    obtain ⟨t, d⟩ := td
    by_cases hacc : moveAccepted s sid t
    · simp only [runMoves, if_pos hacc]
      have hbound := moveAccepted_bound s sid t hacc
      have hnew := lastMoveBound_after_accepted s sid d t ds hacc
      obtain ⟨hchain, hall⟩ := ih (handleMove sid d t ds s).1
      rw [hnew] at hall
      constructor
      · rw [List.chain'_cons']
        refine ⟨fun y hy => hall y (List.mem_of_mem_head? hy), hchain⟩
      · intro u hu
        rcases List.mem_cons.mp hu with rfl | hu'
        · exact hbound
        · have := hall u hu'; omega
    · have hacc' : moveAccepted s sid t = false := by simpa using hacc
      simp only [runMoves, if_neg hacc, handleMove_rejected s sid d t ds hacc']
      exact ih s

/-! ## Claim C3 -/

/-- C3: for a single connection, the accepted `move` events are at least
16 ms apart — for any trace of processed moves, any two accepted
processing times differ by at least 16 ms — and a move failing the
throttle test is dropped with the server state unchanged (and nothing
emitted, so nothing is queued). -/
theorem c3_rate_limit (sid ds : String) (s : ServerState)
    (ms : List (ℤ × MoveData)) :
    List.Pairwise (fun a b => a + 16 ≤ b) (runMoves sid ds s ms)
    ∧ (∀ s' d t, moveAccepted s' sid t = false →
        handleMove sid d t ds s' = (s', [])) := by
  constructor
  · haveI : IsTrans ℤ (fun a b => a + 16 ≤ b) := ⟨fun a b c h1 h2 => by omega⟩
    exact List.chain'_iff_pairwise.mp (runMoves_chain sid ds ms s).1
  · intro s' d t h
    exact handleMove_rejected s' sid d t ds h

/-- C3 witness: the rate-limit theorem applied to a concrete state and a
burst arriving 5 ms after connection start, which is dropped unchanged. -/
theorem c3_witness :
    handleMove "p1" ⟨none, none, none, none⟩ 5 "d" wStatePlain = (wStatePlain, []) :=
  (c3_rate_limit "p1" "d" wStatePlain []).2 wStatePlain ⟨none, none, none, none⟩ 5
    (by decide)

/-! ## Claim C9 -/

/-- C9 counterexample: the claim requires that a `move` message missing a
coordinate leaves the player's stored state unchanged or gives it a
defined default.  In the code the missing coordinate is written through
unchecked: for a player whose `x` is `5`, an accepted move with no `x`
field sets the stored `x` to `undefined` (here `none`) — neither the old
value nor a defined number. -/
theorem c9_counterexample :
    (((handleMove "p1" ⟨none, some 3, none, none⟩ 1000 "d"
        wStatePlain).1.players.lookup "p1").map Player.x = some none)
    ∧ wPlayer.x = some 5
    ∧ (some (none : Option ℚ) ≠ some (some (5 : ℚ))) :=
  ⟨by decide, by decide, by decide⟩

/-- C9 (amended): a `setUsername` whose username is missing, empty or
whitespace-only after trimming is silently ignored: the state is
unchanged and nothing is emitted.  A `move` arriving inside the throttle
window is dropped with the state unchanged; an accepted `move` with a
missing `x` or `y` stores the missing coordinate as `undefined` in the
player record (the handler does not throw — it is a total function).  No
handler ever emits an error event: the protocol has no "error" message. -/
theorem c9_malformed_inputs (s : ServerState) (sid uname ds : String)
    (tokOpt : Option String) (now : ℤ) (d : MoveData) :
    ((jsTrim uname).length = 0 →
        handleSetUsername sid (.obj (some uname) tokOpt) now s = (s, []))
    ∧ (handleSetUsername sid (.obj none tokOpt) now s = (s, []))
    ∧ (moveAccepted s sid now = false → handleMove sid d now ds s = (s, []))
    ∧ (moveAccepted s sid now = true →
        ∃ p', (handleMove sid d now ds s).1.players.lookup sid = some p'
          ∧ p'.x = d.x ∧ p'.y = d.y)
    ∧ (∀ e : Event, e.wireName ≠ "error") := by
  refine ⟨fun h0 => setUsername_noop_of_whitespace s sid uname tokOpt now h0,
    setUsername_noop_of_missing s sid tokOpt now,
    fun h => handleMove_rejected s sid d now ds h,
    fun h => ?_, fun e => by cases e <;> simp [Event.wireName]⟩
  obtain ⟨p', h1, h2, h3, _⟩ := handleMove_accepted s sid d now ds h
  exact ⟨p', h1, h2, h3⟩

/-- C9 witness: the malformed-input theorem applied concretely: a
whitespace-only username is a no-op, and an accepted move with a missing
`x` stores `undefined`. -/
theorem c9_witness :
    (handleSetUsername "p1" (.obj (some "   ") none) 1000 wStatePlain
        = (wStatePlain, []))
    ∧ (∃ p', (handleMove "p1" ⟨none, some 3, none, none⟩ 1000 "d"
          wStatePlain).1.players.lookup "p1" = some p'
        ∧ p'.x = none ∧ p'.y = some 3) := by
  have h := c9_malformed_inputs wStatePlain "p1" "   " "d" none 1000
    ⟨none, some 3, none, none⟩
  exact ⟨h.1 (by decide), h.2.2.2.1 (by decide)⟩

/-! ## Pill-pool lemmas -/

theorem checkPillCollection_pills_le (sid : String) (px py : Option ℚ) (now : ℤ)
    (ds : String) (s : ServerState) :
    (checkPillCollection sid px py now ds s).1.pills.length ≤ s.pills.length := by
  unfold checkPillCollection
  cases hp : s.players.lookup sid with
  | none => simp
  | some p =>
    cases hfind : List.find? (fun kv => inPickupRange px py kv.2) s.pills with
    | none => simp
    | some kv =>
      obtain ⟨pid, pill⟩ := kv
      simp [updateDailyLeaderboard, updateAllTimeLeaderboardState, mapDelete_length_le]

theorem handleMove_pills_le (sid : String) (d : MoveData) (now : ℤ) (ds : String)
    (s : ServerState) :
    (handleMove sid d now ds s).1.pills.length ≤ s.pills.length := by
  unfold handleMove
  cases hp : s.players.lookup sid with
  | none => simp
  | some p =>
    by_cases hh : p.health > 0
    · by_cases hg : now - p.lastMovementUpdate.getD 0 ≥ 16
      · simp only [if_pos hh, if_pos hg]
        exact checkPillCollection_pills_le sid d.x d.y now ds _
      · simp [hh, hg]
    · simp [hh]

theorem setUsername_pills (sid : String) (data : UsernameData) (now : ℤ)
    (s : ServerState) :
    (handleSetUsername sid data now s).1.pills = s.pills := by
  unfold handleSetUsername
  cases data with
  | str u =>
    cases hp : s.players.lookup sid with
    | none => simp [hp]
    | some p =>
      simp only [hp]
      split <;> simp
  | obj u t =>
    cases u with
    | none => cases hp : s.players.lookup sid <;> simp [hp]
    | some uname =>
      cases hp : s.players.lookup sid with
      | none => simp [hp]
      | some p =>
        simp only [hp]
        split <;> simp

theorem handleDisconnect_pills (sid tok : String) (now : ℤ) (s : ServerState) :
    (handleDisconnect sid tok now s).1.pills = s.pills := by
  unfold handleDisconnect
  cases hp : s.players.lookup sid with
  | none => simp
  | some p =>
    by_cases hs : p.score > 0 <;> simp [hs, updateDailyLeaderboard]

/-! ## Claim C4 -/

/-- C4: the resource pool never exceeds 30 pills: a spawn attempt at
capacity is a no-op, every other operation can only remove pills, and
`pills.length ≤ 30` is preserved by every operation. -/
theorem c4_pill_capacity (op : ServerOp) (s : ServerState)
    (h : s.pills.length ≤ 30) :
    ((step op s).1.pills.length ≤ 30)
    ∧ (∀ pid px py t, s.pills.length = 30 →
        step (.spawnPill pid px py t) s = (s, []))
    ∧ ((∀ pid px py t, op ≠ .spawnPill pid px py t) →
        (step op s).1.pills.length ≤ s.pills.length) := by
  have hle : (∀ pid px py t, op ≠ .spawnPill pid px py t) →
      (step op s).1.pills.length ≤ s.pills.length := by
    intro hne
    cases op with
    | connect sid sx sy color num now => simp [step, handleConnect]
    | setUsername sid data now => simp [step, setUsername_pills]
    | move sid d now ds => exact handleMove_pills_le sid d now ds s
    | respawnFire sid sx sy =>
      unfold step handleRespawnFire
      cases hp : s.players.lookup sid <;> simp [hp]
    | disconnect sid tok now => simp [step, handleDisconnect_pills]
    | spawnPill pid' px' py' t' => exact absurd rfl (hne pid' px' py' t')
    | tick now nm today =>
      unfold step dailyTick
      by_cases hr : max 0 (s.daily.resetTime - now) ≤ 0 <;> simp [hr]
    | sweep now => simp [step, sweepTokens]
  refine ⟨?_, ?_, hle⟩
  · cases op with
    | spawnPill pid px py t =>
      unfold step generatePill
      by_cases hcap : s.pills.length ≥ MAX_PILLS
      · simpa [hcap] using h
      · have := mapSet_length_le pid (Pill.mk px py 1 t) s.pills
        simp only [if_neg hcap]
        simp only [MAX_PILLS] at hcap
        omega
    | connect sid sx sy color num now =>
      exact le_trans (hle fun a b c d => ServerOp.noConfusion) h
    | setUsername sid data now =>
      exact le_trans (hle fun a b c d => ServerOp.noConfusion) h
    | move sid d now ds =>
      exact le_trans (hle fun a b c d => ServerOp.noConfusion) h
    | respawnFire sid sx sy =>
      exact le_trans (hle fun a b c d => ServerOp.noConfusion) h
    | disconnect sid tok now =>
      exact le_trans (hle fun a b c d => ServerOp.noConfusion) h
    | tick now nm today =>
      exact le_trans (hle fun a b c d => ServerOp.noConfusion) h
    | sweep now =>
      exact le_trans (hle fun a b c d => ServerOp.noConfusion) h
  · intro pid px py t hfull
    have hcap : s.pills.length ≥ MAX_PILLS := by simp [MAX_PILLS, hfull]
    simp [step, generatePill, hcap]

/-- C4 witness: the capacity theorem at a concrete state below capacity. -/
theorem c4_witness :
    ((step (.sweep 0) wStatePlain).1.pills.length ≤ 30) :=
  (c4_pill_capacity (.sweep 0) wStatePlain (by decide)).1

/-! ## Claim C5 -/

theorem mapDelete_mem_iff {β : Type} {k : String} {l : List (String × β)}
    (hnd : (l.map Prod.fst).Nodup) {kv : String × β} (hkv : kv ∈ l) :
    kv ∈ mapDelete k l ↔ kv.1 ≠ k := by
  induction l with
  | nil => simp at hkv
  | cons hd rest ih =>
    obtain ⟨k₀, v₀⟩ := hd
    simp only [List.map_cons, List.nodup_cons, List.mem_map] at hnd
    obtain ⟨hk₀, hndr⟩ := hnd
    unfold mapDelete at ih ⊢
    rw [List.eraseP_cons]
    by_cases hk : k₀ = k
    · have : ((k₀, v₀).1 == k) = true := by simp [hk]
      simp only [this, cond_true]
      rcases List.mem_cons.mp hkv with rfl | hmem
      · constructor
        · intro hin
          exact absurd ⟨(k₀, v₀), hin, rfl⟩ hk₀
        · intro hne
          exact absurd hk (by simpa using hne)
      · have hne : kv.1 ≠ k := by
          intro he
          exact hk₀ ⟨kv, hmem, by rw [he, hk]⟩
        simp [hmem, hne]
    · have : ((k₀, v₀).1 == k) = false := by simp [hk]
      simp only [this, cond_false]
      rcases List.mem_cons.mp hkv with rfl | hmem
      · simp [hk]
      · rw [List.mem_cons]
        constructor
        · intro hin
          rcases hin with rfl | hin
          · exact hk
          · exact (ih hndr hmem).mp hin
        · intro hne
          exact Or.inr ((ih hndr hmem).mpr hne)

/-- C5: each accepted move collects at most one pill: the scan stops at
the first pill within pickup range of the new position.  Even when
several pills are in range at once, exactly one (the first in iteration
order) is removed, the player's score increases by exactly that pill's
point value, and every other pill — including other overlapping ones —
stays in the pool. -/
theorem c5_single_collection (s : ServerState) (sid ds : String)
    (px py : Option ℚ) (now : ℤ) (player : Player)
    (hp : s.players.lookup sid = some player)
    (hkeys : (s.pills.map Prod.fst).Nodup)
    (hhit : ∃ kv ∈ s.pills, inPickupRange px py kv.2) :
    ∃ pid pill,
      s.pills.find? (fun kv => inPickupRange px py kv.2) = some (pid, pill)
      ∧ (pid, pill) ∈ s.pills ∧ inPickupRange px py pill
      ∧ (checkPillCollection sid px py now ds s).1.pills.length + 1 = s.pills.length
      ∧ ((pid, pill) ∉ (checkPillCollection sid px py now ds s).1.pills)
      ∧ (∀ kv ∈ s.pills, kv.1 ≠ pid →
          kv ∈ (checkPillCollection sid px py now ds s).1.pills)
      ∧ ((checkPillCollection sid px py now ds s).1.players.lookup sid
          = some { player with score := player.score + pill.points }) := by
  have hsome : (s.pills.find? (fun kv => inPickupRange px py kv.2)).isSome :=
    List.find?_isSome.mpr hhit
  obtain ⟨⟨pid, pill⟩, hfind⟩ := Option.isSome_iff_exists.mp hsome
  have hmem : (pid, pill) ∈ s.pills := List.mem_of_find?_eq_some hfind
  have hrange : inPickupRange px py pill := by
    simpa using List.find?_some hfind
  have hpills : (checkPillCollection sid px py now ds s).1.pills
      = mapDelete pid s.pills := by
    simp [checkPillCollection, hp, hfind, updateDailyLeaderboard,
      updateAllTimeLeaderboardState]
  have hplayers : (checkPillCollection sid px py now ds s).1.players.lookup sid
      = some { player with score := player.score + pill.points } := by
    simp [checkPillCollection, hp, hfind, updateDailyLeaderboard,
      updateAllTimeLeaderboardState, lookup_mapSet_self]
  refine ⟨pid, pill, hfind, hmem, hrange, ?_, ?_, ?_, hplayers⟩
  · rw [hpills]
    have hlen : (mapDelete pid s.pills).length = s.pills.length - 1 :=
      List.length_eraseP_of_mem hmem (by simp)
    have hpos : 0 < s.pills.length := List.length_pos.mpr (by
      intro he
      rw [he] at hmem
      simp at hmem)
    omega
  · rw [hpills]
    intro hin
    have := (mapDelete_mem_iff hkeys hmem).mp hin
    simp at this
  · intro kv hkv hne
    rw [hpills]
    exact (mapDelete_mem_iff hkeys hkv).mpr hne

/-- C5 witness: two pills at the same point `(5, 7)`; a move onto that
point collects exactly the first one and leaves the other in the pool. -/
theorem c5_witness :
    ∃ pid pill,
      wStateTwoPills.pills.find? (fun kv => inPickupRange (some 5) (some 7) kv.2)
          = some (pid, pill)
      ∧ (pid, pill) ∈ wStateTwoPills.pills ∧ inPickupRange (some 5) (some 7) pill
      ∧ (checkPillCollection "p1" (some 5) (some 7) 1000 "d"
            wStateTwoPills).1.pills.length + 1 = wStateTwoPills.pills.length
      ∧ ((pid, pill) ∉ (checkPillCollection "p1" (some 5) (some 7) 1000 "d"
            wStateTwoPills).1.pills)
      ∧ (∀ kv ∈ wStateTwoPills.pills, kv.1 ≠ pid →
          kv ∈ (checkPillCollection "p1" (some 5) (some 7) 1000 "d"
            wStateTwoPills).1.pills)
      ∧ ((checkPillCollection "p1" (some 5) (some 7) 1000 "d"
            wStateTwoPills).1.players.lookup "p1"
          = some { wPlayer with score := wPlayer.score + pill.points }) :=
  c5_single_collection wStateTwoPills "p1" "d" (some 5) (some 7) 1000 wPlayer
    (by decide) (by decide)
    ⟨("pillA", ⟨5, 7, 1, 0⟩), by decide,
      by norm_num [inPickupRange, PLAYER_RADIUS, PILL_SIZE]⟩

/-! ## All-time leaderboard lemmas -/

theorem atlLe_trans : ∀ a b c : ATEntry,
    atlLe a b = true → atlLe b c = true → atlLe a c = true := by
  intro a b c h1 h2
  simp only [atlLe, decide_eq_true_eq] at *
  omega

theorem atlLe_total : ∀ a b : ATEntry, (atlLe a b || atlLe b a) = true := by
  intro a b
  simp only [atlLe, Bool.or_eq_true, decide_eq_true_eq]
  omega

theorem sortedByScore_mergeSort (l : List ATEntry) :
    SortedByScore (l.mergeSort atlLe) := by
  have := List.sorted_mergeSort atlLe_trans atlLe_total l
  exact this.imp (fun h => by simpa [atlLe] using h)

theorem mergeSort_eq_of_sortedByScore {l : List ATEntry} (h : SortedByScore l) :
    l.mergeSort atlLe = l :=
  List.mergeSort_of_sorted (h.imp (fun hab => by simpa [atlLe] using hab))

theorem set_getElem_self {α : Type} (l : List α) (i : ℕ) (h : i < l.length) :
    l.set i l[i] = l := by
  rw [List.set_eq_take_cons_drop _ h, List.getElem_cons_drop, List.take_append_drop]

theorem atlUpsert_nodup {n : String} {e : ATEntry} {b : List ATEntry}
    (hn : e.name = n) (h : (b.map ATEntry.name).Nodup) :
    ((atlUpsert n e b).map ATEntry.name).Nodup := by
  cases hidx : b.findIdx? (fun entry => entry.name == n) with
  | none =>
    have hup : atlUpsert n e b = b ++ [e] := by
      unfold atlUpsert
      rw [hidx]
    have hnotin : ∀ x ∈ b, x.name ≠ n := by
      intro x hx
      have := List.findIdx?_eq_none_iff.mp hidx x hx
      simpa using this
    rw [hup]
    simp only [List.map_append, List.map_cons, List.map_nil]
    rw [List.nodup_append]
    refine ⟨h, by simp, ?_⟩
    intro a ha
    simp only [List.mem_singleton]
    intro he
    obtain ⟨x, hx, hxa⟩ := List.mem_map.mp ha
    exact hnotin x hx (by rw [← hxa] at he; rw [he, hn])
  | some i =>
    obtain ⟨hi, hfi⟩ := List.findIdx?_eq_some_iff_findIdx_eq.mp hidx
    have hup : atlUpsert n e b
        = if e.score > (b.getD i e).score then b.set i e else b := by
      unfold atlUpsert
      rw [hidx]
    rw [hup]
    split
    · have hpi : (b[i].name == n) = true := by
        have hw : List.findIdx (fun entry => entry.name == n) b < b.length := by
          omega
        have := @List.findIdx_getElem _ (fun entry => entry.name == n) b hw
        simp only [hfi] at this
        exact this
      have hbn : b[i].name = n := by simpa using hpi
      have hmi : i < (b.map ATEntry.name).length := by simpa using hi
      have hmap : (b.map ATEntry.name)[i] = e.name := by
        rw [List.getElem_map]
        rw [hbn, hn]
      have : (b.map ATEntry.name).set i e.name = b.map ATEntry.name := by
        rw [← hmap]
        exact set_getElem_self _ i (by simpa using hi)
      rw [List.map_set, this]
      exact h
    · exact h

theorem updateATL_inv (n ds : String) (sc now : ℤ) {b : List ATEntry}
    (h : (b.map ATEntry.name).Nodup) :
    ATLInv (updateAllTimeLeaderboard n sc now ds b) := by
  unfold updateAllTimeLeaderboard
  refine ⟨?_, ?_, ?_⟩
  · simp only [List.length_take]
    omega
  · exact (sortedByScore_mergeSort _).sublist (List.take_sublist _ _)
  · have h1 := atlUpsert_nodup (e := ⟨n, sc, now, ds⟩) rfl h
    have hperm := (List.mergeSort_perm (atlUpsert n ⟨n, sc, now, ds⟩ b) atlLe).map
      ATEntry.name
    have h2 : (((atlUpsert n ⟨n, sc, now, ds⟩ b).mergeSort atlLe).map
        ATEntry.name).Nodup := hperm.nodup_iff.mpr h1
    rw [List.map_take]
    exact h2.sublist (List.take_sublist _ _)

theorem checkPillCollection_ATLInv (sid : String) (px py : Option ℚ) (now : ℤ)
    (ds : String) (s : ServerState) (h : ATLInv s.allTime) :
    ATLInv ((checkPillCollection sid px py now ds s).1.allTime) := by
  unfold checkPillCollection
  cases hp : s.players.lookup sid with
  | none => exact h
  | some p =>
    cases hfind : List.find? (fun kv => inPickupRange px py kv.2) s.pills with
    | none => exact h
    | some kv =>
      obtain ⟨pid, pill⟩ := kv
      simp only [updateDailyLeaderboard, updateAllTimeLeaderboardState]
      exact updateATL_inv _ _ _ _ h.2.2

theorem handleMove_ATLInv (sid : String) (d : MoveData) (now : ℤ) (ds : String)
    (s : ServerState) (h : ATLInv s.allTime) :
    ATLInv ((handleMove sid d now ds s).1.allTime) := by
  unfold handleMove
  cases hp : s.players.lookup sid with
  | none => exact h
  | some p =>
    by_cases hh : p.health > 0
    · by_cases hg : now - p.lastMovementUpdate.getD 0 ≥ 16
      · simp only [if_pos hh, if_pos hg]
        exact checkPillCollection_ATLInv sid d.x d.y now ds _ h
      · simp only [if_pos hh, if_neg hg]
        exact h
    · simp only [if_neg hh]
      exact h

theorem setUsername_allTime (sid : String) (data : UsernameData) (now : ℤ)
    (s : ServerState) :
    (handleSetUsername sid data now s).1.allTime = s.allTime := by
  unfold handleSetUsername
  cases data with
  | str u =>
    cases hp : s.players.lookup sid with
    | none => simp [hp]
    | some p =>
      simp only [hp]
      split <;> simp
  | obj u t =>
    cases u with
    | none => cases hp : s.players.lookup sid <;> simp [hp]
    | some uname =>
      cases hp : s.players.lookup sid with
      | none => simp [hp]
      | some p =>
        simp only [hp]
        split <;> simp

theorem handleDisconnect_allTime (sid tok : String) (now : ℤ) (s : ServerState) :
    (handleDisconnect sid tok now s).1.allTime = s.allTime := by
  unfold handleDisconnect
  cases hp : s.players.lookup sid with
  | none => simp
  | some p =>
    by_cases hs : p.score > 0 <;> simp [hs, updateDailyLeaderboard]

/-! ## Claim C6 -/

/-- C6 counterexample: the claim requires the all-time leaderboard to be
*strictly* sorted descending at all times, but the comparator
`b.score - a.score` admits ties: starting from the empty board (its
initial value), reporting score 5 for "Alice" and then score 5 for "Bob"
yields two entries with equal scores, which is not strictly descending. -/
theorem c6_counterexample :
    ¬ List.Chain' (fun a b : ATEntry => b.score < a.score)
      (updateAllTimeLeaderboard "Bob" 5 1 "d"
        (updateAllTimeLeaderboard "Alice" 5 0 "d" [])) := by
  simp [updateAllTimeLeaderboard, atlUpsert, atlLe, List.mergeSort]

/-- C6 (amended): after every operation the all-time leaderboard has at
most 3 entries, is sorted in non-increasing (not necessarily strictly
decreasing) score order, and has at most one entry per player name —
`ATLInv` is preserved by every server operation. -/
theorem c6_leaderboard_invariant (op : ServerOp) (s : ServerState)
    (h : ATLInv s.allTime) : ATLInv ((step op s).1.allTime) := by
  cases op with
  | connect sid sx sy color num now => exact h
  | setUsername sid data now =>
    have heq : (step (.setUsername sid data now) s).1.allTime = s.allTime :=
      setUsername_allTime sid data now s
    rw [heq]; exact h
  | move sid d now ds => exact handleMove_ATLInv sid d now ds s h
  | respawnFire sid sx sy =>
    have heq : (handleRespawnFire sid sx sy s).1.allTime = s.allTime := by
      unfold handleRespawnFire
      cases hp : s.players.lookup sid <;> simp [hp]
    show ATLInv ((handleRespawnFire sid sx sy s).1.allTime)
    rw [heq]; exact h
  | disconnect sid tok now =>
    have heq : (handleDisconnect sid tok now s).1.allTime = s.allTime :=
      handleDisconnect_allTime sid tok now s
    show ATLInv ((handleDisconnect sid tok now s).1.allTime)
    rw [heq]; exact h
  | spawnPill pid px py t =>
    have heq : (generatePill pid px py t s).1.allTime = s.allTime := by
      unfold generatePill
      by_cases hcap : s.pills.length ≥ MAX_PILLS <;> simp [hcap]
    show ATLInv ((generatePill pid px py t s).1.allTime)
    rw [heq]; exact h
  | tick now nm today =>
    have heq : (dailyTick now nm today s).1.allTime = s.allTime := by
      unfold dailyTick
      by_cases hr : max 0 (s.daily.resetTime - now) ≤ 0 <;> simp [hr]
    show ATLInv ((dailyTick now nm today s).1.allTime)
    rw [heq]; exact h
  | sweep now => exact h

/-- C6 witness: the invariant theorem applied to a concrete state with an
empty leaderboard. -/
theorem c6_witness : ATLInv ((step (.sweep 0) wStatePlain).1.allTime) :=
  c6_leaderboard_invariant (.sweep 0) wStatePlain
    (by refine ⟨by simp [wStatePlain], ?_, by simp [wStatePlain]⟩
        simp [wStatePlain, SortedByScore])

/-! ## Claim C7 -/

theorem atl_found_index {board : List ATEntry} {n : String} {e : ATEntry}
    (hnames : (board.map ATEntry.name).Nodup)
    (he : e ∈ board) (hen : e.name = n) :
    ∃ i, ∃ h : i < board.length,
      board.findIdx? (fun x => x.name == n) = some i ∧ board[i] = e := by
  cases hidx : board.findIdx? (fun x => x.name == n) with
  | none =>
    exfalso
    have := List.findIdx?_eq_none_iff.mp hidx e he
    simp [hen] at this
  | some i =>
    obtain ⟨hi, hfi⟩ := List.findIdx?_eq_some_iff_findIdx_eq.mp hidx
    have hpi : (board[i].name == n) = true := by
      have hw : List.findIdx (fun x => x.name == n) board < board.length := by omega
      have := @List.findIdx_getElem _ (fun x => x.name == n) board hw
      simp only [hfi] at this
      exact this
    have hbn : board[i].name = n := by simpa using hpi
    obtain ⟨j, hj, hbe⟩ := List.mem_iff_getElem.mp he
    have hmi : i < (board.map ATEntry.name).length := by simpa using hi
    have hmj : j < (board.map ATEntry.name).length := by simpa using hj
    have hnij : (board.map ATEntry.name)[i] = (board.map ATEntry.name)[j] := by
      rw [List.getElem_map, List.getElem_map, hbn, hbe, hen]
    have hij : i = j := (hnames.getElem_inj_iff).mp hnij
    subst hij
    exact ⟨i, hi, rfl, hbe⟩

/-- C7: on every score report to the all-time leaderboard: if an entry
with the player's name exists, it is replaced only when the new score is
strictly greater (a lower or equal score leaves the board unchanged); if
no entry with that name exists, a new entry is inserted; after every
insert or update the entries are sorted descending by score and truncated
to the first 3. -/
theorem c7_update_rules (board : List ATEntry) (n ds : String) (sc now : ℤ)
    (hsorted : SortedByScore board) (hlen : board.length ≤ 3)
    (hnames : (board.map ATEntry.name).Nodup) :
    (∀ e ∈ board, e.name = n → sc ≤ e.score →
        updateAllTimeLeaderboard n sc now ds board = board)
    ∧ (∀ e ∈ board, e.name = n → e.score < sc →
        ∃ pre post, board = pre ++ e :: post
          ∧ (updateAllTimeLeaderboard n sc now ds board).Perm
              (⟨n, sc, now, ds⟩ :: (pre ++ post))
          ∧ SortedByScore (updateAllTimeLeaderboard n sc now ds board))
    ∧ ((∀ e ∈ board, e.name ≠ n) →
        ∃ l, l.Perm (⟨n, sc, now, ds⟩ :: board) ∧ SortedByScore l
          ∧ updateAllTimeLeaderboard n sc now ds board = l.take 3) := by
  refine ⟨?_, ?_, ?_⟩
  · intro e he hen hle
    obtain ⟨i, hi, hidx, hbi⟩ := atl_found_index hnames he hen
    have hgd : board.getD i ⟨n, sc, now, ds⟩ = e := by
      rw [List.getD_eq_getElem _ _ hi, hbi]
    have hup : atlUpsert n ⟨n, sc, now, ds⟩ board = board := by
      unfold atlUpsert
      rw [hidx]
      show (if sc > (board.getD i ⟨n, sc, now, ds⟩).score
          then board.set i ⟨n, sc, now, ds⟩ else board) = board
      rw [hgd]
      exact if_neg (not_lt.mpr hle)
    unfold updateAllTimeLeaderboard
    rw [hup, mergeSort_eq_of_sortedByScore hsorted, List.take_of_length_le hlen]
  · intro e he hen hlt
    obtain ⟨i, hi, hidx, hbi⟩ := atl_found_index hnames he hen
    have hgd : board.getD i ⟨n, sc, now, ds⟩ = e := by
      rw [List.getD_eq_getElem _ _ hi, hbi]
    have hup : atlUpsert n ⟨n, sc, now, ds⟩ board = board.set i ⟨n, sc, now, ds⟩ := by
      unfold atlUpsert
      rw [hidx]
      show (if sc > (board.getD i ⟨n, sc, now, ds⟩).score
          then board.set i ⟨n, sc, now, ds⟩ else board) = board.set i ⟨n, sc, now, ds⟩
      rw [hgd]
      exact if_pos hlt
    refine ⟨board.take i, board.drop (i + 1), ?_, ?_, ?_⟩
    · conv_lhs => rw [← List.take_append_drop i board,
        ← List.getElem_cons_drop board i hi]
      rw [hbi]
    · unfold updateAllTimeLeaderboard
      rw [hup]
      have hms := List.mergeSort_perm (board.set i ⟨n, sc, now, ds⟩) atlLe
      have hlen' : ((board.set i ⟨n, sc, now, ds⟩).mergeSort atlLe).length ≤ 3 := by
        rw [hms.length_eq, List.length_set]
        exact hlen
      rw [List.take_of_length_le hlen']
      refine hms.trans ?_
      rw [List.set_eq_take_cons_drop _ hi]
      exact List.perm_middle
    · unfold updateAllTimeLeaderboard
      exact (sortedByScore_mergeSort _).sublist (List.take_sublist _ _)
  · intro hnone
    have hidx : board.findIdx? (fun x => x.name == n) = none :=
      List.findIdx?_eq_none_iff.mpr (fun x hx => by simp [hnone x hx])
    have hup : atlUpsert n ⟨n, sc, now, ds⟩ board = board ++ [⟨n, sc, now, ds⟩] := by
      unfold atlUpsert
      rw [hidx]
    refine ⟨(board ++ [(⟨n, sc, now, ds⟩ : ATEntry)]).mergeSort atlLe, ?_,
      sortedByScore_mergeSort _, ?_⟩
    · refine (List.mergeSort_perm _ _).trans ?_
      simp
    · unfold updateAllTimeLeaderboard
      rw [hup]

/-- C7 witness: reporting score 5 for "A" when the board already holds
"A" with 10 leaves the board unchanged. -/
theorem c7_witness :
    updateAllTimeLeaderboard "A" 5 1 "d" [⟨"A", 10, 0, "d"⟩] = [⟨"A", 10, 0, "d"⟩] :=
  (c7_update_rules [⟨"A", 10, 0, "d"⟩] "A" "d" 5 1 (by simp [SortedByScore])
    (by simp) (by simp)).1 ⟨"A", 10, 0, "d"⟩ (by simp) rfl (by decide)

/-! ## Claim C8 -/

/-- C8 counterexample: the claim requires the reset broadcast to carry
the freshly computed time until the next midnight.  At reset time 1000
with next midnight 86401000 that fresh value is 86400000, but the code
broadcasts the `timeRemaining` field as recomputed at the start of the
tick — 0 — because `resetDailyLeaderboard` does not recompute it after
setting the new reset target. -/
theorem c8_counterexample :
    ((dailyTick 1000 86401000 "Sat Oct 11 2025" wStateReset).2
      = [.saveDaily ⟨"Sat Oct 11 2025", [], 86401000⟩,
         .emit (.dailyLeaderboardReset "Sat Oct 11 2025" 0),
         .emit (.timeUpdate 0)])
    ∧ (Effect.emit (.dailyLeaderboardReset "Sat Oct 11 2025" (86401000 - 1000))
        ∉ (dailyTick 1000 86401000 "Sat Oct 11 2025" wStateReset).2)
    ∧ ((0 : ℤ) ≠ 86401000 - 1000) :=
  ⟨by decide, by decide, by decide⟩

/-- C8 (amended): when the per-second tick finds the reset target
reached, the reset clears all daily entries, sets `currentDay` to today,
sets the next midnight as the new reset target, persists the emptied
state, and broadcasts a reset notification carrying the new day
identifier and the `timeRemaining` value computed at the start of the
tick — which is 0 at the moment the reset fires, not the freshly
computed time until the next midnight. -/
theorem c8_daily_reset (s : ServerState) (now nextMidnight : ℤ) (today : String)
    (h : s.daily.resetTime ≤ now) :
    ((dailyTick now nextMidnight today s).1.daily.topScores = [])
    ∧ ((dailyTick now nextMidnight today s).1.daily.currentDay = today)
    ∧ ((dailyTick now nextMidnight today s).1.daily.resetTime = nextMidnight)
    ∧ ((dailyTick now nextMidnight today s).1.daily.timeRemaining = 0)
    ∧ ((dailyTick now nextMidnight today s).2
        = [.saveDaily ⟨today, [], nextMidnight⟩,
           .emit (.dailyLeaderboardReset today 0),
           .emit (.timeUpdate 0)]) := by
  have h0 : max 0 (s.daily.resetTime - now) = 0 := by omega
  unfold dailyTick
  simp [h0]

/-- C8 witness: the reset theorem applied at the concrete state whose
reset target has been reached. -/
theorem c8_witness :
    ((dailyTick 1000 86401000 "Sat Oct 11 2025" wStateReset).1.daily.topScores = [])
    ∧ ((dailyTick 1000 86401000 "Sat Oct 11 2025" wStateReset).1.daily.currentDay
        = "Sat Oct 11 2025")
    ∧ ((dailyTick 1000 86401000 "Sat Oct 11 2025" wStateReset).1.daily.resetTime
        = 86401000)
    ∧ ((dailyTick 1000 86401000 "Sat Oct 11 2025" wStateReset).1.daily.timeRemaining = 0)
    ∧ ((dailyTick 1000 86401000 "Sat Oct 11 2025" wStateReset).2
        = [.saveDaily ⟨"Sat Oct 11 2025", [], 86401000⟩,
           .emit (.dailyLeaderboardReset "Sat Oct 11 2025" 0),
           .emit (.timeUpdate 0)]) :=
  c8_daily_reset wStateReset 1000 86401000 "Sat Oct 11 2025" (by decide)

end Pil
